import Mathlib

namespace TranslateMovie

/-!
Verification development for the `translateMovie` repository
(`src/translate_movie/core.py`).

The program is a sequential pipeline controller: it acquires a video,
invokes external transcription/translation tools, and reconciles the
resulting subtitle files on disk.  The shallow embedding below models

* a single directory of files as an association list from file name
  (relative to `video_dir`) to file content (`DirState`);
* the fallible OS primitives (`os.replace`, `shutil.copy2`, `os.remove`,
  `os.listdir`) through an oracle (`OpOracle`) saying which individual
  calls raise an exception — a failed call leaves the directory unchanged;
* Python `str.startswith` / `str.endswith` / `os.path.join` as pure
  string functions;
* `get_config`, the newest-file selection of `download_video`, the
  subprocess construction of `translate_subtitles`, the control-flow
  dispatch of `main`, and `postprocess_subtitles` as pure functions over
  these models.
-/

/-- Process environment: a partial map from variable name to value,
modelling `os.environ` lookups (`os.environ.get`). -/
def Env : Type := String → Option String

/-! ### Python string primitives -/

/-- Python `s.startswith(p)`: the first `len(p)` characters of `s` equal `p`. -/
def pyStartsWith (s p : String) : Bool :=
  s.data.take p.data.length == p.data

/-- Python `s.endswith(p)`: the last `len(p)` characters of `s` equal `p`. -/
def pyEndsWith (s p : String) : Bool :=
  s.data.drop (s.data.length - p.data.length) == p.data

/-- Model of `posixpath.join` for a directory and one further component, as used by
`os.path.join(dir, fname)` in the source. -/
def osPathJoin (a b : String) : String :=
  if pyStartsWith b "/" then b
  else if a = "" then b
  else if pyEndsWith a "/" then a ++ b
  else a ++ "/" ++ b

/-! ### Directory state and fallible primitives -/

/-- The contents of `video_dir`: an association list from file name to
file content.  Earlier entries shadow later ones under `lookupD`, and the
operations below never create duplicate keys. -/
abbrev DirState : Type := List (String × String)

/-- Model of `os.path.isfile` and content lookup on the modelled directory. -/
def lookupD : DirState → String → Option String
  | [], _ => none
  | e :: fs, n => if e.1 = n then some e.2 else lookupD fs n

/-- Remove every binding of a name (models `os.remove` succeeding). -/
def eraseKey : DirState → String → DirState
  | [], _ => []
  | e :: fs, n => if e.1 = n then eraseKey fs n else e :: eraseKey fs n

/-- Create or overwrite a file (models a write landing at `n`). -/
def setKey (fs : DirState) (n v : String) : DirState :=
  (n, v) :: eraseKey fs n

/-- Which fallible OS primitives raise an exception during a run.  A raised
primitive performs no change (the handlers in the source merely log). -/
structure OpOracle where
  /-- `os.replace src dst` raises. -/
  replaceFails : String → String → Bool
  /-- `shutil.copy2 src dst` raises. -/
  copyFails : String → String → Bool
  /-- `os.remove name` raises. -/
  removeFails : String → Bool
  /-- `os.listdir video_dir` raises. -/
  listdirFails : Bool

/-- The oracle on which every OS primitive succeeds. -/
def okOracle : OpOracle where
  replaceFails := fun _ _ => false
  copyFails := fun _ _ => false
  removeFails := fun _ => false
  listdirFails := false

/-! ### The promote-one-file step of `postprocess_subtitles`

Source (`core.py`, lines 184-194 and 197-207): each promotion is

    try:
        if os.path.isfile(src):
            try:
                os.replace(src, dst)
            except Exception:
                shutil.copy2(src, dst)   # after importing shutil
                os.remove(src)
    except Exception as e:
        debug(...)
-/

/-- One guarded rename with copy-then-delete fallback, exceptions logged
and swallowed, exactly as in the two promotion blocks of the source. -/
def promote (o : OpOracle) (fs : DirState) (src dst : String) : DirState :=
  match lookupD fs src with
  | none => fs
  | some c =>
    if o.replaceFails src dst then
      -- `os.replace` raised; fall back to `shutil.copy2` + `os.remove`.
      if o.copyFails src dst then
        -- `copy2` raised; the outer handler logs and keeps the state.
        fs
      else
        let fs1 := setKey fs dst c
        if o.removeFails src then
          -- `os.remove` raised after a successful copy: both files remain.
          fs1
        else eraseKey fs1 src
    else
      -- `os.replace` succeeded: atomic move, silently overwriting `dst`.
      setKey (eraseKey fs src) dst c

/-! ### Purging translator progress artifacts -/

/-- The translator's checkpoint suffix `.progress_{lang}.csv`. -/
def progressSuffix (lang : String) : String := ".progress_" ++ lang ++ ".csv"

/-- One iteration of the cleanup loop: remove `fname` when it matches the
progress suffix and `os.remove` does not raise. -/
def purgeStep (o : OpOracle) (lang : String) (acc : DirState) (fname : String) :
    DirState :=
  if pyEndsWith fname (progressSuffix lang) then
    if o.removeFails fname then acc else eraseKey acc fname
  else acc

/-- The cleanup loop of `postprocess_subtitles`: iterate over the listing
of `video_dir` (taken once) and best-effort-remove every progress CSV;
a raised `os.listdir` is caught by the outer handler and leaves the
directory untouched. -/
def purgeProgress (o : OpOracle) (lang : String) (fs : DirState) : DirState :=
  if o.listdirFails then fs
  else (fs.map Prod.fst).foldl (purgeStep o lang) fs

/-! ### `postprocess_subtitles` (source lines 175-221) -/

/-- Model of `postprocess_subtitles(video_dir, video_name, target_lang)`.

The file state is the contents of `video_dir` (`DirState`, keyed by file
name); `o` says which OS primitives raise.  Returns the updated directory
together with the two full paths `(srt_en_final, srt_canonical)` that the
source computes with `os.path.join` and returns unconditionally. -/
def postprocess_subtitles (o : OpOracle) (video_dir video_name target_lang : String)
    (fs : DirState) : DirState × String × String :=
  let srt_en := video_name ++ ".srt"
  let srt_translated := video_name ++ "_" ++ target_lang ++ ".srt"
  let srt_en_final := video_name ++ "_en.srt"
  let fs1 := promote o fs srt_en srt_en_final
  let srt_canonical := video_name ++ ".srt"
  let fs2 := promote o fs1 srt_translated srt_canonical
  let fs3 := purgeProgress o target_lang fs2
  (fs3, osPathJoin video_dir srt_en_final, osPathJoin video_dir srt_canonical)

/-- The inline post-processing block at the end of `main` (source lines
345-389), transcribed independently of `postprocess_subtitles`: promote
`{base}.srt` to `{base}_en.srt` (replace, falling back to copy+remove,
all failures logged), promote `{base}_{TARGET_LANG}.srt` to `{base}.srt`
the same way, then best-effort-delete every `*.progress_{TARGET_LANG}.csv`
in one pass over `os.listdir(video_dir)`, and report the two final paths. -/
def main_postprocess_block (o : OpOracle) (video_dir video_name target_lang : String)
    (fs : DirState) : DirState × String × String :=
  -- `srt_en` and `srt_translated` are computed earlier in `main`
  -- (source lines 294-295) from the same `video_dir`/`video_name`.
  let srt_en := video_name ++ ".srt"
  let srt_translated := video_name ++ "_" ++ target_lang ++ ".srt"
  -- lines 346-359: keep original English subtitles as *_en.srt
  let srt_en_final := video_name ++ "_en.srt"
  let fsA :=
    match lookupD fs srt_en with
    | none => fs
    | some c =>
      if o.replaceFails srt_en srt_en_final then
        if o.copyFails srt_en srt_en_final then fs
        else
          let fs' := setKey fs srt_en_final c
          if o.removeFails srt_en then fs' else eraseKey fs' srt_en
      else setKey (eraseKey fs srt_en) srt_en_final c
  -- lines 361-374: move translated file to canonical name
  let srt_canonical := video_name ++ ".srt"
  let fsB :=
    match lookupD fsA srt_translated with
    | none => fsA
    | some c =>
      if o.replaceFails srt_translated srt_canonical then
        if o.copyFails srt_translated srt_canonical then fsA
        else
          let fs' := setKey fsA srt_canonical c
          if o.removeFails srt_translated then fs' else eraseKey fs' srt_translated
      else setKey (eraseKey fsA srt_translated) srt_canonical c
  -- lines 376-386: remove any progress CSV files like *.progress_pl.csv
  let fsC :=
    if o.listdirFails then fsB
    else (fsB.map Prod.fst).foldl (purgeStep o target_lang) fsB
  (fsC, osPathJoin video_dir srt_en_final, osPathJoin video_dir srt_canonical)

/-! ### `download_video` candidate selection (source lines 64-78)

The earlier parts of `download_video` (the executable check, the stale
cleanup, the `yt-dlp` invocation) run subprocesses; their effect is
summarised by the two inputs below: `getmtime` gives the modification
time `os.path.getmtime` reports for a full path, and `listing` is the
result of the re-listing `os.listdir(output_dir)` — `none` when the
listing raised (caught and treated as an empty listing). -/

/-- Model of `if not candidates: raise FileNotFoundError(...)` followed by
`candidates.sort(key=getmtime, reverse=True)` and `candidates[0]`:
sort newest-first (Python `list.sort` is stable, so ties keep the listing
order, as does a stable insertion sort under the reflexive descending
relation) and take the head. -/
def pickNewestFrom (getmtime : String → Int) : List String → Except String String
  | [] => .error "Could not find downloaded video file"
  | c :: cs =>
    match List.insertionSort (fun p q => getmtime q ≤ getmtime p) (c :: cs) with
    | [] => .error "Could not find downloaded video file"
    | d :: _ => .ok d

/-- The post-download selection: filter the listing to names starting with
`{output_name}.`, join them onto `output_dir`, and pick the newest. -/
def download_video (getmtime : String → Int) (output_dir output_name : String)
    (listing : Option (List String)) : Except String String :=
  let dir_list := listing.getD []
  let candidates := (dir_list.filter fun f => pyStartsWith f (output_name ++ ".")).map
    fun f => osPathJoin output_dir f
  pickNewestFrom getmtime candidates

/-! ### `translate_subtitles` (source lines 98-144) -/

/-- A subprocess invocation: the argv the child receives and the
environment it is started with. -/
structure SubprocessCall where
  cmd : List String
  env : Env

/-- The argv that `translate_subtitles` builds for the node translator
(`node_cmd`, source lines 123-139).  Note that the credential and the
endpoint are not among its parameters. -/
def translate_cmd (translator_path openai_model srt_en srt_out source_lang
    target_lang batch_sizes : String) : List String :=
  ["node",
   osPathJoin (osPathJoin translator_path "cli") "translator.mjs",
   "--from", source_lang,
   "--to", target_lang,
   "--model", openai_model,
   "--input", srt_en,
   "--output", srt_out,
   "--no-use-moderator",
   "--batch-sizes", batch_sizes]

/-- Model of `translate_subtitles`: copy the process environment, inject the
credential and the endpoint into the copy, and invoke the translator with
`node_cmd` under that environment (`subprocess.run(node_cmd, env=env)`). -/
def translate_subtitles (base_env : Env) (translator_path openai_model srt_en srt_out
    source_lang target_lang batch_sizes openai_api_key openai_endpoint : String) :
    SubprocessCall where
  cmd := translate_cmd translator_path openai_model srt_en srt_out source_lang
    target_lang batch_sizes
  env := fun k =>
    if k = "OPENAI_BASE_URL" then some openai_endpoint
    else if k = "OPENAI_API_KEY" then some openai_api_key
    else base_env k

/-! ### `get_config` (source lines 158-172)

`TRANSLATOR_PATH` is passed through `os.path.expandvars` and then
`os.path.expanduser`; both are modelled below after `posixpath`. -/

/-- A character of a POSIX variable name (`\w` under `re.ASCII`). -/
def isVarChar (c : Char) : Bool := c.isAlphanum || c = '_'

/-- Split a maximal run of variable-name characters off the front. -/
def takeVarName : List Char → List Char × List Char
  | [] => ([], [])
  | c :: cs =>
    if isVarChar c then
      let p := takeVarName cs
      (c :: p.1, p.2)
    else ([], c :: cs)

/-- Split a brace-delimited variable body: the characters before the first
closing brace, and the rest after it; `none` when no closing brace exists. -/
def splitBrace : List Char → Option (List Char × List Char)
  | [] => none
  | c :: cs =>
    if c = Char.ofNat 125 then some ([], cs)
    else
      match splitBrace cs with
      | none => none
      | some p => some (c :: p.1, p.2)

/-- Model of `posixpath.expandvars` on a character list.  At each `$`, a
brace-delimited or `\w+` name is looked up: a bound name is replaced by
its value (which is not rescanned, matching the index jump in the
source), an unbound or malformed reference is kept literally.
Recursion is on the remaining input; the fuel (always instantiated to
more than the input length, which suffices because every step consumes
at least one character) only discharges termination. -/
def expandvarsAux (env : Env) : Nat → List Char → List Char
  | 0, l => l
  | _ + 1, [] => []
  | fuel + 1, c :: cs =>
    if c = '$' then
      match cs with
      | d :: cs' =>
        if d = Char.ofNat 123 then
          match splitBrace cs' with
          | some (nm, rest) =>
            match env (String.mk nm) with
            | some v => v.data ++ expandvarsAux env fuel rest
            | none =>
              c :: d :: (nm ++ Char.ofNat 125 :: expandvarsAux env fuel rest)
          | none => c :: d :: expandvarsAux env fuel cs'
        else
          match takeVarName cs with
          | ([], _) => c :: expandvarsAux env fuel cs
          | (nm, rest) =>
            match env (String.mk nm) with
            | some v => v.data ++ expandvarsAux env fuel rest
            | none => c :: (nm ++ expandvarsAux env fuel rest)
      | [] => [c]
    else c :: expandvarsAux env fuel cs

/-- Model of `os.path.expandvars` (posix flavour). -/
def expandvars (env : Env) (path : String) : String :=
  String.mk (expandvarsAux env (path.data.length + 1) path.data)

/-- Model of `os.path.expanduser` (posix flavour) for the `~` form resolved through
the `HOME` environment variable.  The `pwd`-database fallbacks (no `HOME`
set, or a `~user` form) query the OS user database, which is outside this
embedding; they are modelled as returning the path unchanged. -/
def expanduser (env : Env) (path : String) : String :=
  match path.data with
  | '~' :: rest =>
    if rest = [] ∨ rest.head? = some '/' then
      match env "HOME" with
      | some home =>
        let h := (home.data.reverse.dropWhile (· = '/')).reverse
        let res := h ++ rest
        if res = [] then "/" else String.mk res
      | none => path
    else path
  | _ => path

/-- The run configuration returned by `get_config`. -/
structure Config where
  WHISPER_MODEL : String
  WHISPER_LANGUAGE : String
  OPENAI_ENDPOINT : String
  OPENAI_API_KEY : String
  OPENAI_MODEL : String
  TRANSLATOR_PATH : String
  SOURCE_LANG : String
  TARGET_LANG : String
  YT_DLP_PATH : String
  YT_DLP_OUTPUT_NAME : String
  TRANSLATION_BATCH_SIZES : String

/-- Model of `get_config()`: each key is `os.environ.get(key, default)`, except
`TRANSLATOR_PATH`, whose value (environment or default) additionally goes
through `os.path.expandvars` and `os.path.expanduser`. -/
def get_config (env : Env) : Config where
  WHISPER_MODEL := (env "WHISPER_MODEL").getD "large"
  WHISPER_LANGUAGE := (env "WHISPER_LANGUAGE").getD "en"
  OPENAI_ENDPOINT := (env "OPENAI_ENDPOINT").getD "http://localhost:20000/v1"
  OPENAI_API_KEY := (env "OPENAI_API_KEY").getD "lm-studio"
  OPENAI_MODEL := (env "OPENAI_MODEL").getD "qwen3-30b-a3b-instruct-2507"
  TRANSLATOR_PATH := expanduser env (expandvars env
    ((env "TRANSLATOR_PATH").getD "$HOME/tools/translateMovie/chatgpt-subtitle-translator"))
  SOURCE_LANG := (env "SOURCE_LANG").getD "en"
  TARGET_LANG := (env "TARGET_LANG").getD "pl"
  YT_DLP_PATH := (env "YT_DLP_PATH").getD "/usr/local/bin/yt-dlp"
  YT_DLP_OUTPUT_NAME := (env "YT_DLP_OUTPUT_NAME").getD "ytDownloadedFile"
  TRANSLATION_BATCH_SIZES := (env "TRANSLATION_BATCH_SIZES").getD "[5,10]"

/-! ### `main` dispatch (source lines 240-273)

Only the control flow up to the acquisition stage is modelled: which
branch an invocation takes and which exit code it produces, for a call
`main(argv)` with an explicit argument list (so the bare-invocation help
branch at line 243 is not taken).  `truthy` is Python truthiness on an
optional string option. -/

/-- The parsed command-line options (`argparse.Namespace`). -/
structure Args where
  file : Option String
  net : Option String
  postprocess_only : Option String
  skip_whisper : Bool
  update_ytdlp : Bool

/-- Python truthiness of an optional string: `None` and `""` are falsy. -/
def truthy : Option String → Bool
  | none => false
  | some s => !(s == "")

/-- The early dispatch of `main`: `(updater ran, exit code)` where the
code is `none` when control continues into the acquisition stage.
`postprocess_file_exists` models `os.path.isfile(args.postprocess_only)`
and `updater_ok` whether `update_ytdlp` would complete without raising. -/
def main_dispatch (args : Args) (postprocess_file_exists : Bool)
    (updater_ok : Bool) : Bool × Option Nat :=
  -- lines 250-260: --postprocess-only
  if truthy args.postprocess_only then
    if !postprocess_file_exists then (false, some 4) else (false, some 0)
  -- lines 263-265: one of --file / --net is required
  else if !truthy args.file && !truthy args.net then (false, some 2)
  -- lines 267-273: --update-ytdlp
  else if args.update_ytdlp then
    if updater_ok then (true, some 0) else (true, some 2)
  else (false, none)

/-! ### Concrete fixtures used by witnesses and counterexamples -/

/-- Environment binding `TRANSLATOR_PATH` to a value containing a variable
reference, with `HOME` bound. -/
def envTP : Env := fun k =>
  if k = "TRANSLATOR_PATH" then some "$HOME/x"
  else if k = "HOME" then some "/root" else none

/-- Environment overriding a single ordinary configuration key. -/
def envWM : Env := fun k => if k = "WHISPER_MODEL" then some "medium" else none

/-- Modification times for the spec's two-candidate download scenario:
`base.webm` is newer than `base.mp4`. -/
def mtimeC4 : String → Int := fun p => if p = "dl/base.webm" then 2 else 1

/-- Oracle on which every `os.replace` raises but copy and remove work,
exercising the copy-then-delete fallback. -/
def replaceFailsOracle : OpOracle where
  replaceFails := fun _ _ => true
  copyFails := fun _ _ => false
  removeFails := fun _ => false
  listdirFails := false

/-- Oracle failing only the removal of `b.progress_pl.csv`, exercising the
independence of the progress-file deletions. -/
def removeBOracle : OpOracle where
  replaceFails := fun _ _ => false
  copyFails := fun _ _ => false
  removeFails := fun m => m == "b.progress_pl.csv"
  listdirFails := false

/-! ## Lemmas about the embedding -/

theorem pyEndsWith_iff {s p : String} :
    pyEndsWith s p = true ↔ ∃ l, s.data = l ++ p.data := by
  unfold pyEndsWith
  rw [beq_iff_eq]
  constructor
  · intro h
    exact ⟨s.data.take (s.data.length - p.data.length), by
      conv_lhs => rw [← List.take_append_drop (s.data.length - p.data.length) s.data]
      rw [h]⟩
  · rintro ⟨l, hl⟩
    rw [hl, List.length_append, Nat.add_sub_cancel, List.drop_left]

theorem pyEndsWith_append (a b : String) : pyEndsWith (a ++ b) b = true := by
  rw [pyEndsWith_iff]
  exact ⟨a.data, String.data_append a b⟩

theorem pyEndsWith_trans {s p q : String} (h₁ : pyEndsWith s p = true)
    (h₂ : pyEndsWith p q = true) : pyEndsWith s q = true := by
  rw [pyEndsWith_iff] at h₁ h₂ ⊢
  obtain ⟨l₁, hl₁⟩ := h₁
  obtain ⟨l₂, hl₂⟩ := h₂
  exact ⟨l₁ ++ l₂, by rw [hl₁, hl₂, List.append_assoc]⟩

/-- Two suffixes of the same string whose lengths agree are equal. -/
theorem pyEndsWith_eq_of_length {s p q : String} (h₁ : pyEndsWith s p = true)
    (h₂ : pyEndsWith s q = true) (hlen : p.data.length = q.data.length) :
    p.data = q.data := by
  rw [pyEndsWith_iff] at h₁ h₂
  obtain ⟨l₁, hl₁⟩ := h₁
  obtain ⟨l₂, hl₂⟩ := h₂
  exact (List.append_inj' (hl₁.symm.trans hl₂) hlen).2

/-- No file name ends both with a `.progress_{lang}.csv` suffix and with
`.srt` — the translator progress artifacts are disjoint from all the
subtitle names handled by post-processing. -/
theorem progress_ne_srt {s lang : String}
    (h₁ : pyEndsWith s (".progress_" ++ lang ++ ".csv") = true)
    (h₂ : pyEndsWith s ".srt" = true) : False := by
  have hcsv : pyEndsWith s ".csv" = true :=
    pyEndsWith_trans h₁ (pyEndsWith_append (".progress_" ++ lang) ".csv")
  have := pyEndsWith_eq_of_length hcsv h₂ rfl
  simp at this

theorem String.ne_of_length_ne {s t : String} (h : s.length ≠ t.length) :
    s ≠ t := fun he => h (he ▸ rfl)

theorem lookupD_eraseKey (fs : DirState) (k n : String) :
    lookupD (eraseKey fs k) n = if n = k then none else lookupD fs n := by
  induction fs with
  | nil => simp [eraseKey, lookupD]
  | cons e fs ih =>
    by_cases h₁ : e.1 = k
    · by_cases h₂ : n = k
      · subst h₂
        simp [eraseKey, lookupD, h₁, ih]
      · have h₃ : ¬ e.1 = n := fun h => h₂ ((h.symm.trans h₁))
        have h₄ : ¬ k = n := fun h => h₂ h.symm
        simp [eraseKey, lookupD, h₁, h₂, h₃, h₄, ih]
    · by_cases h₂ : e.1 = n
      · have h₃ : ¬ n = k := fun h => h₁ (h₂.trans h)
        simp [eraseKey, lookupD, h₁, h₂, h₃]
      · simp [eraseKey, lookupD, h₁, h₂, ih]

theorem lookupD_setKey (fs : DirState) (k v n : String) :
    lookupD (setKey fs k v) n = if n = k then some v else lookupD fs n := by
  by_cases h : n = k
  · simp [setKey, lookupD, h]
  · have : ¬ k = n := fun he => h he.symm
    simp [setKey, lookupD, this, lookupD_eraseKey, h]

theorem mem_keys_of_lookupD_some {fs : DirState} {n c : String}
    (h : lookupD fs n = some c) : n ∈ fs.map Prod.fst := by
  induction fs with
  | nil => simp [lookupD] at h
  | cons e fs ih =>
    by_cases he : e.1 = n
    · exact List.mem_map.mpr ⟨e, List.mem_cons_self e fs, he⟩
    · simp only [lookupD, he, if_false] at h
      rw [List.map_cons]
      exact List.mem_cons_of_mem _ (ih h)

theorem lookupD_isSome_of_mem_keys {fs : DirState} {n : String}
    (h : n ∈ fs.map Prod.fst) : (lookupD fs n).isSome = true := by
  induction fs with
  | nil => simp at h
  | cons e fs ih =>
    by_cases he : e.1 = n
    · simp [lookupD, he]
    · rw [List.map_cons] at h
      rcases List.mem_cons.mp h with h | h
      · exact absurd h.symm he
      · simp [lookupD, he, ih h]

theorem promote_of_none {o : OpOracle} {fs : DirState} {src dst : String}
    (h : lookupD fs src = none) : promote o fs src dst = fs := by
  unfold promote
  rw [h]

theorem promote_replace_ok {o : OpOracle} {fs : DirState} {src dst c : String}
    (h : lookupD fs src = some c) (hr : o.replaceFails src dst = false) :
    promote o fs src dst = setKey (eraseKey fs src) dst c := by
  unfold promote
  rw [h, hr]
  simp

theorem promote_fallback_ok {o : OpOracle} {fs : DirState} {src dst c : String}
    (h : lookupD fs src = some c) (hr : o.replaceFails src dst = true)
    (hc : o.copyFails src dst = false) (hd : o.removeFails src = false) :
    promote o fs src dst = eraseKey (setKey fs dst c) src := by
  unfold promote
  rw [h, hr, hc, hd]
  simp

/-- A promotion never touches a name other than its source and destination. -/
theorem lookupD_promote_other {o : OpOracle} {fs : DirState} {src dst n : String}
    (hs : n ≠ src) (hd : n ≠ dst) :
    lookupD (promote o fs src dst) n = lookupD fs n := by
  unfold promote
  cases h : lookupD fs src with
  | none => rfl
  | some c =>
    by_cases h₁ : o.replaceFails src dst <;>
      by_cases h₂ : o.copyFails src dst <;>
        by_cases h₃ : o.removeFails src <;>
          simp [h₁, h₂, h₃, lookupD_setKey, lookupD_eraseKey, hs, hd]

theorem lookupD_foldl_purgeStep_of_none {o : OpOracle} {lang n : String} :
    ∀ (names : List String) (acc : DirState), lookupD acc n = none →
      lookupD (names.foldl (purgeStep o lang) acc) n = none := by
  intro names
  induction names with
  | nil => intro acc h; exact h
  | cons m ms ih =>
    intro acc h
    refine ih _ ?_
    unfold purgeStep
    by_cases h₁ : pyEndsWith m (progressSuffix lang) <;>
      by_cases h₂ : o.removeFails m <;>
        simp [h₁, h₂, lookupD_eraseKey, h]

theorem lookupD_foldl_purgeStep_of_mem {o : OpOracle} {lang n : String}
    (hmatch : pyEndsWith n (progressSuffix lang) = true)
    (hrm : o.removeFails n = false) :
    ∀ (names : List String) (acc : DirState), n ∈ names →
      lookupD (names.foldl (purgeStep o lang) acc) n = none := by
  intro names
  induction names with
  | nil => intro acc h; simp at h
  | cons m ms ih =>
    intro acc h
    by_cases hm : m = n
    · subst hm
      refine lookupD_foldl_purgeStep_of_none ms _ ?_
      unfold purgeStep
      simp [hmatch, hrm, lookupD_eraseKey]
    · rcases List.mem_cons.mp h with h | h
      · exact absurd h.symm hm
      · exact ih _ h

theorem lookupD_foldl_purgeStep_of_no_match {o : OpOracle} {lang n : String}
    (hmatch : pyEndsWith n (progressSuffix lang) = false) :
    ∀ (names : List String) (acc : DirState),
      lookupD (names.foldl (purgeStep o lang) acc) n = lookupD acc n := by
  intro names
  induction names with
  | nil => intro acc; rfl
  | cons m ms ih =>
    intro acc
    rw [List.foldl_cons, ih]
    unfold purgeStep
    by_cases h₁ : pyEndsWith m (progressSuffix lang) <;>
      by_cases h₂ : o.removeFails m <;>
        simp [h₁, h₂, lookupD_eraseKey]
    intro he
    subst he
    rw [hmatch] at h₁
    exact absurd h₁ Bool.false_ne_true

/-- A progress file that the listing sees and whose removal succeeds is
gone after the purge, whatever happens to the other files. -/
theorem lookupD_purgeProgress_of_match {o : OpOracle} {lang n : String}
    {fs : DirState} (hld : o.listdirFails = false)
    (hmatch : pyEndsWith n (progressSuffix lang) = true)
    (hrm : o.removeFails n = false) :
    lookupD (purgeProgress o lang fs) n = none := by
  unfold purgeProgress
  rw [hld]
  simp only [Bool.false_eq_true, if_false]
  cases h : lookupD fs n with
  | none => exact lookupD_foldl_purgeStep_of_none _ _ h
  | some c =>
    exact lookupD_foldl_purgeStep_of_mem hmatch hrm _ _ (mem_keys_of_lookupD_some h)

/-- The purge touches only names matching the progress suffix. -/
theorem lookupD_purgeProgress_of_no_match {o : OpOracle} {lang n : String}
    {fs : DirState} (hmatch : pyEndsWith n (progressSuffix lang) = false) :
    lookupD (purgeProgress o lang fs) n = lookupD fs n := by
  unfold purgeProgress
  by_cases hld : o.listdirFails
  · rw [hld]; simp
  · simp only [hld, Bool.false_eq_true, if_false]
    exact lookupD_foldl_purgeStep_of_no_match hmatch _ _

theorem foldl_purgeStep_of_all_no_match {o : OpOracle} {lang : String} :
    ∀ (names : List String) (acc : DirState),
      (∀ m ∈ names, pyEndsWith m (progressSuffix lang) = false) →
      names.foldl (purgeStep o lang) acc = acc := by
  intro names
  induction names with
  | nil => intro acc _; rfl
  | cons m ms ih =>
    intro acc h
    rw [List.foldl_cons]
    have hm := h m (List.mem_cons_self m ms)
    unfold purgeStep
    rw [hm]
    simp only [Bool.false_eq_true, if_false]
    exact ih acc fun x hx => h x (List.mem_cons_of_mem m hx)

/-- With all primitives succeeding, purging an already-purged directory is
the identity: no progress file survives the first purge. -/
theorem purgeProgress_purgeProgress (lang : String) (fs : DirState) :
    purgeProgress okOracle lang (purgeProgress okOracle lang fs) =
      purgeProgress okOracle lang fs := by
  have key : ∀ m ∈ (purgeProgress okOracle lang fs).map Prod.fst,
      pyEndsWith m (progressSuffix lang) = false := by
    intro m hm
    cases hmatch : pyEndsWith m (progressSuffix lang) with
    | false => rfl
    | true =>
      have h₁ : lookupD (purgeProgress okOracle lang fs) m = none :=
        lookupD_purgeProgress_of_match rfl hmatch rfl
      have h₂ := lookupD_isSome_of_mem_keys hm
      rw [h₁] at h₂
      simp at h₂
  set P : DirState := purgeProgress okOracle lang fs with hP
  unfold purgeProgress
  rw [show okOracle.listdirFails = false from rfl]
  simp only [Bool.false_eq_true, if_false]
  exact foldl_purgeStep_of_all_no_match _ _ key

/-! ### Name disjointness facts used by the post-processing proofs -/

theorem srt_en_ne_final (n : String) : n ++ ".srt" ≠ n ++ "_en.srt" := by
  refine String.ne_of_length_ne ?_
  rw [String.length_append, String.length_append]
  have h₁ : (".srt" : String).length = 4 := rfl
  have h₂ : ("_en.srt" : String).length = 7 := rfl
  omega

theorem translated_ne_srt_en (n l : String) :
    n ++ "_" ++ l ++ ".srt" ≠ n ++ ".srt" := by
  refine String.ne_of_length_ne ?_
  simp only [String.length_append]
  have h₁ : ("_" : String).length = 1 := rfl
  omega

theorem translated_ne_final {n l : String} (hl : l ≠ "en") :
    n ++ "_" ++ l ++ ".srt" ≠ n ++ "_en.srt" := by
  intro he
  apply hl
  have he' : n ++ ("_" ++ (l ++ ".srt")) = n ++ ("_" ++ ("en" ++ ".srt")) := by
    rw [← String.append_assoc, ← String.append_assoc]
    rw [he]
    rw [show ("_en.srt" : String) = "_" ++ "en" ++ ".srt" from rfl]
    rw [String.append_assoc]
  have hd := congrArg String.data he'
  rw [String.data_append, String.data_append] at hd
  rw [String.data_append, String.data_append] at hd
  have h₁ := List.append_cancel_left hd
  have h₂ := List.append_cancel_left h₁
  have h₃ := (List.append_inj' h₂ rfl).1
  exact String.ext h₃

theorem pyEndsWith_srt_en (n : String) : pyEndsWith (n ++ ".srt") ".srt" = true :=
  pyEndsWith_append n ".srt"

theorem pyEndsWith_final (n : String) : pyEndsWith (n ++ "_en.srt") ".srt" = true := by
  rw [show n ++ "_en.srt" = (n ++ "_en") ++ ".srt" from by
    rw [String.append_assoc]
    rfl]
  exact pyEndsWith_append _ ".srt"

theorem pyEndsWith_translated (n l : String) :
    pyEndsWith (n ++ "_" ++ l ++ ".srt") ".srt" = true :=
  pyEndsWith_append _ ".srt"

/-- A progress CSV name never coincides with any of the four subtitle
names that the promotion steps read or write. -/
theorem progress_ne_subtitle_names {m n l lang : String}
    (hm : pyEndsWith m (progressSuffix lang) = true) :
    m ≠ n ++ ".srt" ∧ m ≠ n ++ "_en.srt" ∧ m ≠ n ++ "_" ++ l ++ ".srt" := by
  refine ⟨fun he => ?_, fun he => ?_, fun he => ?_⟩
  · exact progress_ne_srt (he ▸ hm) (pyEndsWith_srt_en n)
  · exact progress_ne_srt (he ▸ hm) (pyEndsWith_final n)
  · exact progress_ne_srt (he ▸ hm) (pyEndsWith_translated n l)

/-- Every selection from a non-empty candidate list succeeds and returns a
candidate whose modification time is maximal among the candidates. -/
theorem pickNewestFrom_spec (gm : String → Int) (cands : List String)
    (h : cands ≠ []) :
    ∃ p, pickNewestFrom gm cands = .ok p ∧ p ∈ cands ∧ ∀ q ∈ cands, gm q ≤ gm p := by
  cases cands with
  | nil => exact absurd rfl h
  | cons c cs =>
    haveI htot : IsTotal String fun p q => gm q ≤ gm p := ⟨fun a b => le_total (gm b) (gm a)⟩
    haveI htr : IsTrans String fun p q => gm q ≤ gm p :=
      ⟨fun a b c hab hbc => le_trans hbc hab⟩
    have hperm := List.perm_insertionSort (fun p q => gm q ≤ gm p) (c :: cs)
    have hsorted := List.sorted_insertionSort (fun p q => gm q ≤ gm p) (c :: cs)
    cases hs : List.insertionSort (fun p q => gm q ≤ gm p) (c :: cs) with
    | nil =>
      rw [hs] at hperm
      simp [List.Perm.nil_eq hperm] at *
    | cons d ds =>
      refine ⟨d, ?_, ?_, ?_⟩
      · simp only [pickNewestFrom]
        rw [hs]
      · rw [hs] at hperm
        exact hperm.mem_iff.mp (List.mem_cons_self d ds)
      · intro q hq
        rw [hs] at hperm hsorted
        rcases List.mem_cons.mp (hperm.mem_iff.mpr hq) with hq' | hq'
        · rw [hq']
        · exact List.rel_of_sorted_cons hsorted q hq'

/-- A string ending in `.srt` never matches the progress-CSV suffix. -/
theorem not_progress_of_srt {s lang : String} (h : pyEndsWith s ".srt" = true) :
    pyEndsWith s (progressSuffix lang) = false := by
  cases hm : pyEndsWith s (progressSuffix lang) with
  | false => rfl
  | true => exact absurd (progress_ne_srt hm h) not_false

/-! ## The claims -/

/-- C3 (code bug): the spec documents `--update-ytdlp` as "refresh the
downloader binary and exit", with exit code 0 on success and 2 on updater
failure.  In the code, the required-mode check at lines 263-265 precedes
the `--update-ytdlp` branch at lines 267-273, so the invocation
`["--update-ytdlp"]` (no `--file`/`--net`) exits with code 2 without ever
invoking the updater — even when the updater would succeed.  The theorem
evaluates the dispatch at that failing input: the updater does not run
(`false`) and the exit code is 2, which differs from the claimed
behaviour `(true, some 0)`. -/
theorem update_ytdlp_alone_never_updates :
    main_dispatch ⟨none, none, none, false, true⟩ false true = (false, some 2) ∧
    main_dispatch ⟨none, none, none, false, true⟩ false true ≠ (true, some 0) :=
  ⟨rfl, by decide⟩

/-- C5: after the downloader invocation, `download_video` raises
`FileNotFoundError` ("Could not find downloaded video file") whenever no
file in the listing starts with `{output_name}.`; a listing that itself
raised (`listing = none`) is treated as an empty listing and produces the
same error. -/
theorem download_video_notfound (gm : String → Int) (od bn : String)
    (listing : Option (List String))
    (h : listing = none ∨ ∀ f ∈ listing.getD [], pyStartsWith f (bn ++ ".") = false) :
    download_video gm od bn listing = .error "Could not find downloaded video file" := by
  rcases h with h | h
  · subst h
    rfl
  · have hfil : (listing.getD []).filter (fun f => pyStartsWith f (bn ++ ".")) = [] := by
      rw [List.filter_eq_nil_iff]
      intro a ha
      rw [h a ha]
      exact Bool.false_ne_true
    show pickNewestFrom gm (((listing.getD []).filter
      fun f => pyStartsWith f (bn ++ ".")).map fun f => osPathJoin od f) =
        Except.error "Could not find downloaded video file"
    rw [hfil]
    rfl

/-- Witness for C5: a failed listing, and a listing with no matching
prefix, both produce the `NotFound` error. -/
theorem download_video_notfound_witness :
    download_video mtimeC4 "dl" "base" none =
      .error "Could not find downloaded video file" ∧
    download_video mtimeC4 "dl" "base" (some ["other.mp4", "readme.txt"]) =
      .error "Could not find downloaded video file" :=
  ⟨download_video_notfound mtimeC4 "dl" "base" none (Or.inl rfl),
   download_video_notfound mtimeC4 "dl" "base" (some ["other.mp4", "readme.txt"])
     (Or.inr (by decide))⟩

/-- C4: whenever at least one file in the listing starts with
`{output_name}.`, `download_video` succeeds and returns a candidate path
whose modification time is maximal among all candidates; in the spec's
concrete scenario with `base.mp4` older and `base.webm` newer it returns
the `.webm` path. -/
theorem download_video_picks_newest :
    (∀ (gm : String → Int) (od bn : String) (l : List String),
      (∃ f ∈ l, pyStartsWith f (bn ++ ".") = true) →
      ∃ p, download_video gm od bn (some l) = .ok p ∧
        p ∈ ((l.filter fun f => pyStartsWith f (bn ++ ".")).map fun f => osPathJoin od f) ∧
        ∀ q ∈ ((l.filter fun f => pyStartsWith f (bn ++ ".")).map fun f => osPathJoin od f),
          gm q ≤ gm p) ∧
    download_video mtimeC4 "dl" "base" (some ["base.mp4", "base.webm"]) =
      .ok "dl/base.webm" := by
  constructor
  · intro gm od bn l hex
    obtain ⟨f, hf, hsw⟩ := hex
    have hmem : osPathJoin od f ∈
        ((l.filter fun f => pyStartsWith f (bn ++ ".")).map fun f => osPathJoin od f) :=
      List.mem_map.mpr ⟨f, List.mem_filter.mpr ⟨hf, hsw⟩, rfl⟩
    have hne : ((l.filter fun f => pyStartsWith f (bn ++ ".")).map
        fun f => osPathJoin od f) ≠ [] := by
      intro hnil
      rw [hnil] at hmem
      simp at hmem
    exact pickNewestFrom_spec gm _ hne
  · rfl

/-- Witness for C4: the universal part applied to the spec's concrete
scenario. -/
theorem download_video_picks_newest_witness :
    ∃ p, download_video mtimeC4 "dl" "base" (some ["base.mp4", "base.webm"]) = .ok p ∧
      p ∈ ((["base.mp4", "base.webm"].filter
        fun f => pyStartsWith f ("base" ++ ".")).map fun f => osPathJoin "dl" f) ∧
      ∀ q ∈ ((["base.mp4", "base.webm"].filter
        fun f => pyStartsWith f ("base" ++ ".")).map fun f => osPathJoin "dl" f),
        mtimeC4 q ≤ mtimeC4 p :=
  download_video_picks_newest.1 mtimeC4 "dl" "base" ["base.mp4", "base.webm"]
    ⟨"base.mp4", by decide, by decide⟩

/-- C8: `postprocess_subtitles` always returns the pair of joined paths
`({video_dir}/{video_name}_en.srt, {video_dir}/{video_name}.srt)` —
whatever the directory contains, and whichever rename or delete attempts
the oracle makes fail. -/
theorem postprocess_returns_fixed_paths (o : OpOracle)
    (video_dir video_name target_lang : String) (fs : DirState) :
    (postprocess_subtitles o video_dir video_name target_lang fs).2 =
      (osPathJoin video_dir (video_name ++ "_en.srt"),
       osPathJoin video_dir (video_name ++ ".srt")) := rfl

/-- C9: `translate_subtitles` passes the credential and the endpoint to
the subprocess only through its environment: the environment maps
`OPENAI_API_KEY` and `OPENAI_BASE_URL` to them, and the argv is built by
`translate_cmd`, whose arguments do not include them — so the argv is
identical across any two invocations differing only in credential,
endpoint, or inherited environment (noninterference). -/
theorem translate_subtitles_credentials_via_env
    (base_env base_env' : Env) (tp m si so sl tl b key endp key' endp' : String) :
    (translate_subtitles base_env tp m si so sl tl b key endp).env "OPENAI_API_KEY" =
      some key ∧
    (translate_subtitles base_env tp m si so sl tl b key endp).env "OPENAI_BASE_URL" =
      some endp ∧
    (translate_subtitles base_env tp m si so sl tl b key endp).cmd =
      translate_cmd tp m si so sl tl b ∧
    (translate_subtitles base_env tp m si so sl tl b key endp).cmd =
      (translate_subtitles base_env' tp m si so sl tl b key' endp').cmd :=
  ⟨by simp [translate_subtitles], rfl, rfl, rfl⟩

/-- C10: the inline post-processing block at the end of `main` (lines
345-389) is, on every oracle and every directory state, extensionally the
same transformation as `postprocess_subtitles(video_dir, video_name,
TARGET_LANG)` — the same final directory and the same reported paths. -/
theorem main_inline_postprocess_equiv (o : OpOracle) (d n l : String) (fs : DirState) :
    main_postprocess_block o d n l fs = postprocess_subtitles o d n l fs := rfl

/-- C7: post-processing deletes every file of `video_dir` whose name ends
in `.progress_{lang}.csv` (for any number of such files, since the
directory is universally quantified), provided the one-shot listing
succeeds and that file's own removal does not raise.  The oracle is free
on every other name, so one failed deletion cannot block another: the
conclusion holds whatever `removeFails` answers elsewhere.  All failures
are benign by construction — the function is total and, per
`postprocess_subtitles`, still returns its path pair. -/
theorem postprocess_purges_progress (o : OpOracle) (d n l fname : String)
    (fs : DirState) (hld : o.listdirFails = false)
    (hmatch : pyEndsWith fname (progressSuffix l) = true)
    (hrm : o.removeFails fname = false) :
    lookupD (postprocess_subtitles o d n l fs).1 fname = none :=
  lookupD_purgeProgress_of_match hld hmatch hrm

/-- Witness for C7: with the removal of `b.progress_pl.csv` failing,
`a.progress_pl.csv` is still deleted. -/
theorem postprocess_purges_progress_witness :
    removeBOracle.listdirFails = false ∧
    pyEndsWith "a.progress_pl.csv" (progressSuffix "pl") = true ∧
    removeBOracle.removeFails "a.progress_pl.csv" = false ∧
    lookupD (postprocess_subtitles removeBOracle "d" "movie" "pl"
      [("a.progress_pl.csv", "x"), ("b.progress_pl.csv", "y")]).1
      "a.progress_pl.csv" = none :=
  ⟨rfl, by decide, by decide,
   postprocess_purges_progress removeBOracle "d" "movie" "pl" "a.progress_pl.csv"
     [("a.progress_pl.csv", "x"), ("b.progress_pl.csv", "y")]
     rfl (by decide) (by decide)⟩

/-- C2 (amended): every recognized configuration key except
`TRANSLATOR_PATH` resolves independently of all other keys — to the
environment value verbatim when the identically-named variable is
present, and to the hardcoded default when it is absent.
`TRANSLATOR_PATH` is the exception the counterexample forces: its value
(whether from the environment or the default) additionally passes
through `os.path.expandvars` and `os.path.expanduser`, so it is neither
verbatim nor independent of other variables such as `HOME`. -/
theorem get_config_resolution (env : Env) (v : String) :
    ((env "WHISPER_MODEL" = some v → (get_config env).WHISPER_MODEL = v) ∧
     (env "WHISPER_MODEL" = none → (get_config env).WHISPER_MODEL = "large")) ∧
    ((env "WHISPER_LANGUAGE" = some v → (get_config env).WHISPER_LANGUAGE = v) ∧
     (env "WHISPER_LANGUAGE" = none → (get_config env).WHISPER_LANGUAGE = "en")) ∧
    ((env "OPENAI_ENDPOINT" = some v → (get_config env).OPENAI_ENDPOINT = v) ∧
     (env "OPENAI_ENDPOINT" = none →
       (get_config env).OPENAI_ENDPOINT = "http://localhost:20000/v1")) ∧
    ((env "OPENAI_API_KEY" = some v → (get_config env).OPENAI_API_KEY = v) ∧
     (env "OPENAI_API_KEY" = none → (get_config env).OPENAI_API_KEY = "lm-studio")) ∧
    ((env "OPENAI_MODEL" = some v → (get_config env).OPENAI_MODEL = v) ∧
     (env "OPENAI_MODEL" = none →
       (get_config env).OPENAI_MODEL = "qwen3-30b-a3b-instruct-2507")) ∧
    ((env "SOURCE_LANG" = some v → (get_config env).SOURCE_LANG = v) ∧
     (env "SOURCE_LANG" = none → (get_config env).SOURCE_LANG = "en")) ∧
    ((env "TARGET_LANG" = some v → (get_config env).TARGET_LANG = v) ∧
     (env "TARGET_LANG" = none → (get_config env).TARGET_LANG = "pl")) ∧
    ((env "YT_DLP_PATH" = some v → (get_config env).YT_DLP_PATH = v) ∧
     (env "YT_DLP_PATH" = none → (get_config env).YT_DLP_PATH = "/usr/local/bin/yt-dlp")) ∧
    ((env "YT_DLP_OUTPUT_NAME" = some v → (get_config env).YT_DLP_OUTPUT_NAME = v) ∧
     (env "YT_DLP_OUTPUT_NAME" = none →
       (get_config env).YT_DLP_OUTPUT_NAME = "ytDownloadedFile")) ∧
    ((env "TRANSLATION_BATCH_SIZES" = some v →
       (get_config env).TRANSLATION_BATCH_SIZES = v) ∧
     (env "TRANSLATION_BATCH_SIZES" = none →
       (get_config env).TRANSLATION_BATCH_SIZES = "[5,10]")) ∧
    (get_config env).TRANSLATOR_PATH = expanduser env (expandvars env
      ((env "TRANSLATOR_PATH").getD
        "$HOME/tools/translateMovie/chatgpt-subtitle-translator")) := by
  have step : ∀ k dflt : String,
      (env k = some v → (env k).getD dflt = v) ∧
      (env k = none → (env k).getD dflt = dflt) := by
    intro k dflt
    constructor
    · intro h
      rw [h]
      rfl
    · intro h
      rw [h]
      rfl
  exact ⟨step "WHISPER_MODEL" "large", step "WHISPER_LANGUAGE" "en",
    step "OPENAI_ENDPOINT" "http://localhost:20000/v1",
    step "OPENAI_API_KEY" "lm-studio",
    step "OPENAI_MODEL" "qwen3-30b-a3b-instruct-2507",
    step "SOURCE_LANG" "en", step "TARGET_LANG" "pl",
    step "YT_DLP_PATH" "/usr/local/bin/yt-dlp",
    step "YT_DLP_OUTPUT_NAME" "ytDownloadedFile",
    step "TRANSLATION_BATCH_SIZES" "[5,10]", rfl⟩

/-- Counterexample for C2 as stated: with `TRANSLATOR_PATH=$HOME/x` and
`HOME=/root` in the environment, `get_config` yields `/root/x`, not the
environment value `$HOME/x` verbatim. -/
theorem get_config_translator_path_counterexample :
    envTP "TRANSLATOR_PATH" = some "$HOME/x" ∧
    (get_config envTP).TRANSLATOR_PATH = "/root/x" ∧
    (get_config envTP).TRANSLATOR_PATH ≠ "$HOME/x" :=
  ⟨by decide, by decide, by decide⟩

/-- Witness for C2: with only `WHISPER_MODEL` overridden, that key is
taken verbatim from the environment and the others fall back to their
documented defaults. -/
theorem get_config_resolution_witness :
    (get_config envWM).WHISPER_MODEL = "medium" ∧
    (get_config envWM).OPENAI_API_KEY = "lm-studio" ∧
    (get_config envWM).TARGET_LANG = "pl" := by
  obtain ⟨h₁, h₂, h₃, h₄, h₅, h₆, h₇, h₈, h₉, h₁₀, htp⟩ :=
    get_config_resolution envWM "medium"
  exact ⟨h₁.1 (by decide), h₄.2 (by decide), h₇.2 (by decide)⟩

/-- C1 (amended): in the state the claim describes — `{base}.srt` present,
no staged `{base}_{lang}.srt`, with `lang ≠ "en"` and all primitives
succeeding — two successive invocations of `postprocess_subtitles` do
return the identical path pair, and the second invocation leaves the
directory exactly as the first left it; but the first invocation does
not leave the canonical file unchanged: it renames `{base}.srt` to
`{base}_en.srt` (overwriting any previous archive), leaving the canonical
name unoccupied. -/
theorem postprocess_noop_case (d n l : String) (fs : DirState) (c : String)
    (hl : l ≠ "en")
    (hcan : lookupD fs (n ++ ".srt") = some c)
    (hstaged : lookupD fs (n ++ "_" ++ l ++ ".srt") = none) :
    (postprocess_subtitles okOracle d n l fs).2 =
      (postprocess_subtitles okOracle d n l
        (postprocess_subtitles okOracle d n l fs).1).2 ∧
    lookupD (postprocess_subtitles okOracle d n l fs).1 (n ++ ".srt") = none ∧
    lookupD (postprocess_subtitles okOracle d n l fs).1 (n ++ "_en.srt") = some c ∧
    (postprocess_subtitles okOracle d n l
      (postprocess_subtitles okOracle d n l fs).1).1 =
      (postprocess_subtitles okOracle d n l fs).1 := by
  have hne1 : n ++ ".srt" ≠ n ++ "_en.srt" := srt_en_ne_final n
  have hne2 : n ++ "_" ++ l ++ ".srt" ≠ n ++ ".srt" := translated_ne_srt_en n l
  have hne3 : n ++ "_" ++ l ++ ".srt" ≠ n ++ "_en.srt" := translated_ne_final hl
  have hfs1 : promote okOracle fs (n ++ ".srt") (n ++ "_en.srt") =
      setKey (eraseKey fs (n ++ ".srt")) (n ++ "_en.srt") c :=
    promote_replace_ok hcan rfl
  have hstep2 : lookupD (promote okOracle fs (n ++ ".srt") (n ++ "_en.srt"))
      (n ++ "_" ++ l ++ ".srt") = none := by
    rw [hfs1, lookupD_setKey, if_neg hne3, lookupD_eraseKey, if_neg hne2]
    exact hstaged
  have hstate1 : (postprocess_subtitles okOracle d n l fs).1 =
      purgeProgress okOracle l (promote okOracle fs (n ++ ".srt") (n ++ "_en.srt")) := by
    show purgeProgress okOracle l (promote okOracle
      (promote okOracle fs (n ++ ".srt") (n ++ "_en.srt"))
      (n ++ "_" ++ l ++ ".srt") (n ++ ".srt")) = _
    rw [promote_of_none hstep2]
  have hm1 : pyEndsWith (n ++ ".srt") (progressSuffix l) = false :=
    not_progress_of_srt (pyEndsWith_srt_en n)
  have hm2 : pyEndsWith (n ++ "_en.srt") (progressSuffix l) = false :=
    not_progress_of_srt (pyEndsWith_final n)
  have hm3 : pyEndsWith (n ++ "_" ++ l ++ ".srt") (progressSuffix l) = false :=
    not_progress_of_srt (pyEndsWith_translated n l)
  have hs1 : lookupD (postprocess_subtitles okOracle d n l fs).1 (n ++ ".srt") = none := by
    rw [hstate1, lookupD_purgeProgress_of_no_match hm1, hfs1, lookupD_setKey,
      if_neg hne1, lookupD_eraseKey, if_pos rfl]
  have hd1 : lookupD (postprocess_subtitles okOracle d n l fs).1
      (n ++ "_en.srt") = some c := by
    rw [hstate1, lookupD_purgeProgress_of_no_match hm2, hfs1, lookupD_setKey,
      if_pos rfl]
  have hs2 : lookupD (postprocess_subtitles okOracle d n l fs).1
      (n ++ "_" ++ l ++ ".srt") = none := by
    rw [hstate1, lookupD_purgeProgress_of_no_match hm3]
    exact hstep2
  have hsecond : (postprocess_subtitles okOracle d n l
      (postprocess_subtitles okOracle d n l fs).1).1 =
      (postprocess_subtitles okOracle d n l fs).1 := by
    show purgeProgress okOracle l (promote okOracle (promote okOracle
      (postprocess_subtitles okOracle d n l fs).1 (n ++ ".srt") (n ++ "_en.srt"))
      (n ++ "_" ++ l ++ ".srt") (n ++ ".srt")) = _
    rw [promote_of_none hs1, promote_of_none hs2, hstate1,
      purgeProgress_purgeProgress]
  exact ⟨rfl, hs1, hd1, hsecond⟩

/-- Counterexample for C1 as stated: in the no-op state (`movie.srt`
present, no staged `movie_pl.srt`), invoking post-processing twice does
not leave the canonical file unchanged — `movie.srt` held `"PL TEXT"`
before and no longer exists afterward (it was renamed to
`movie_en.srt` by the first invocation). -/
theorem postprocess_noop_counterexample :
    lookupD [("movie.srt", "PL TEXT")] "movie.srt" = some "PL TEXT" ∧
    lookupD (postprocess_subtitles okOracle "d" "movie" "pl"
      (postprocess_subtitles okOracle "d" "movie" "pl"
        [("movie.srt", "PL TEXT")]).1).1 "movie.srt" = none :=
  ⟨by decide, by decide⟩

/-- Witness for C1 (amended), at the counterexample's concrete state. -/
theorem postprocess_noop_case_witness :
    (postprocess_subtitles okOracle "d" "movie" "pl" [("movie.srt", "PL TEXT")]).2 =
      (postprocess_subtitles okOracle "d" "movie" "pl"
        (postprocess_subtitles okOracle "d" "movie" "pl"
          [("movie.srt", "PL TEXT")]).1).2 ∧
    lookupD (postprocess_subtitles okOracle "d" "movie" "pl"
      [("movie.srt", "PL TEXT")]).1 ("movie" ++ ".srt") = none ∧
    lookupD (postprocess_subtitles okOracle "d" "movie" "pl"
      [("movie.srt", "PL TEXT")]).1 ("movie" ++ "_en.srt") = some "PL TEXT" ∧
    (postprocess_subtitles okOracle "d" "movie" "pl"
      (postprocess_subtitles okOracle "d" "movie" "pl"
        [("movie.srt", "PL TEXT")]).1).1 =
      (postprocess_subtitles okOracle "d" "movie" "pl"
        [("movie.srt", "PL TEXT")]).1 :=
  postprocess_noop_case "d" "movie" "pl" [("movie.srt", "PL TEXT")] "PL TEXT"
    (by decide) (by decide) (by decide)

/-- C6: post-processing is the purge after two promotions (conjunct 1),
and each promotion behaves as specified on every directory state: if the
source exists and `os.replace` succeeds, the destination holds the source
content afterwards — silently overwriting whatever was there, since no
assumption on the destination is made — and the source is gone
(conjuncts 2 and 5); if `os.replace` raises but the copy-then-delete
fallback succeeds, the effect is the same (conjuncts 3 and 6); if the
source is absent, nothing changes (conjuncts 4 and 7).  Failures are
never fatal: the function is total and the path pair is returned on every
oracle (conjunct 8). -/
theorem postprocess_promotion_semantics (o : OpOracle) (d n l : String)
    (fs : DirState) :
    (postprocess_subtitles o d n l fs).1 =
      purgeProgress o l (promote o (promote o fs (n ++ ".srt") (n ++ "_en.srt"))
        (n ++ "_" ++ l ++ ".srt") (n ++ ".srt")) ∧
    (∀ c, lookupD fs (n ++ ".srt") = some c →
      o.replaceFails (n ++ ".srt") (n ++ "_en.srt") = false →
      lookupD (promote o fs (n ++ ".srt") (n ++ "_en.srt")) (n ++ "_en.srt") = some c ∧
      lookupD (promote o fs (n ++ ".srt") (n ++ "_en.srt")) (n ++ ".srt") = none) ∧
    (∀ c, lookupD fs (n ++ ".srt") = some c →
      o.replaceFails (n ++ ".srt") (n ++ "_en.srt") = true →
      o.copyFails (n ++ ".srt") (n ++ "_en.srt") = false →
      o.removeFails (n ++ ".srt") = false →
      lookupD (promote o fs (n ++ ".srt") (n ++ "_en.srt")) (n ++ "_en.srt") = some c ∧
      lookupD (promote o fs (n ++ ".srt") (n ++ "_en.srt")) (n ++ ".srt") = none) ∧
    (lookupD fs (n ++ ".srt") = none →
      promote o fs (n ++ ".srt") (n ++ "_en.srt") = fs) ∧
    (∀ c, lookupD (promote o fs (n ++ ".srt") (n ++ "_en.srt"))
        (n ++ "_" ++ l ++ ".srt") = some c →
      o.replaceFails (n ++ "_" ++ l ++ ".srt") (n ++ ".srt") = false →
      lookupD (promote o (promote o fs (n ++ ".srt") (n ++ "_en.srt"))
        (n ++ "_" ++ l ++ ".srt") (n ++ ".srt")) (n ++ ".srt") = some c ∧
      lookupD (promote o (promote o fs (n ++ ".srt") (n ++ "_en.srt"))
        (n ++ "_" ++ l ++ ".srt") (n ++ ".srt")) (n ++ "_" ++ l ++ ".srt") = none) ∧
    (∀ c, lookupD (promote o fs (n ++ ".srt") (n ++ "_en.srt"))
        (n ++ "_" ++ l ++ ".srt") = some c →
      o.replaceFails (n ++ "_" ++ l ++ ".srt") (n ++ ".srt") = true →
      o.copyFails (n ++ "_" ++ l ++ ".srt") (n ++ ".srt") = false →
      o.removeFails (n ++ "_" ++ l ++ ".srt") = false →
      lookupD (promote o (promote o fs (n ++ ".srt") (n ++ "_en.srt"))
        (n ++ "_" ++ l ++ ".srt") (n ++ ".srt")) (n ++ ".srt") = some c ∧
      lookupD (promote o (promote o fs (n ++ ".srt") (n ++ "_en.srt"))
        (n ++ "_" ++ l ++ ".srt") (n ++ ".srt")) (n ++ "_" ++ l ++ ".srt") = none) ∧
    (lookupD (promote o fs (n ++ ".srt") (n ++ "_en.srt"))
        (n ++ "_" ++ l ++ ".srt") = none →
      promote o (promote o fs (n ++ ".srt") (n ++ "_en.srt"))
        (n ++ "_" ++ l ++ ".srt") (n ++ ".srt") =
        promote o fs (n ++ ".srt") (n ++ "_en.srt")) ∧
    (postprocess_subtitles o d n l fs).2 =
      (osPathJoin d (n ++ "_en.srt"), osPathJoin d (n ++ ".srt")) := by
  have hne1 : n ++ ".srt" ≠ n ++ "_en.srt" := srt_en_ne_final n
  have hne2 : n ++ "_" ++ l ++ ".srt" ≠ n ++ ".srt" := translated_ne_srt_en n l
  refine ⟨rfl, fun c hc hr => ?_, fun c hc hr hcp hrm => ?_, promote_of_none,
    fun c hc hr => ?_, fun c hc hr hcp hrm => ?_, promote_of_none, rfl⟩
  · rw [promote_replace_ok hc hr]
    constructor
    · rw [lookupD_setKey, if_pos rfl]
    · rw [lookupD_setKey, if_neg hne1, lookupD_eraseKey, if_pos rfl]
  · rw [promote_fallback_ok hc hr hcp hrm]
    constructor
    · rw [lookupD_eraseKey, if_neg (Ne.symm hne1), lookupD_setKey, if_pos rfl]
    · rw [lookupD_eraseKey, if_pos rfl]
  · rw [promote_replace_ok hc hr]
    constructor
    · rw [lookupD_setKey, if_pos rfl]
    · rw [lookupD_setKey, if_neg hne2, lookupD_eraseKey, if_pos rfl]
  · rw [promote_fallback_ok hc hr hcp hrm]
    constructor
    · rw [lookupD_eraseKey, if_neg (Ne.symm hne2), lookupD_setKey, if_pos rfl]
    · rw [lookupD_eraseKey, if_pos rfl]

/-- Witness for C6: the replace path and the copy-then-delete fallback
path both promote `m.srt` to `m_en.srt`, and the path pair is returned. -/
theorem postprocess_promotion_semantics_witness :
    lookupD (promote okOracle [("m.srt", "EN")] ("m" ++ ".srt") ("m" ++ "_en.srt"))
      ("m" ++ "_en.srt") = some "EN" ∧
    lookupD (promote okOracle [("m.srt", "EN")] ("m" ++ ".srt") ("m" ++ "_en.srt"))
      ("m" ++ ".srt") = none ∧
    lookupD (promote replaceFailsOracle [("m.srt", "EN")] ("m" ++ ".srt")
      ("m" ++ "_en.srt")) ("m" ++ "_en.srt") = some "EN" ∧
    lookupD (promote replaceFailsOracle [("m.srt", "EN")] ("m" ++ ".srt")
      ("m" ++ "_en.srt")) ("m" ++ ".srt") = none ∧
    (postprocess_subtitles okOracle "d" "m" "pl" [("m.srt", "EN")]).2 =
      (osPathJoin "d" ("m" ++ "_en.srt"), osPathJoin "d" ("m" ++ ".srt")) := by
  obtain ⟨-, hs1, -, -, -, -, -, hpair⟩ :=
    postprocess_promotion_semantics okOracle "d" "m" "pl" [("m.srt", "EN")]
  obtain ⟨-, -, hf1, -, -, -, -, -⟩ :=
    postprocess_promotion_semantics replaceFailsOracle "d" "m" "pl" [("m.srt", "EN")]
  obtain ⟨ha, hb⟩ := hs1 "EN" (by decide) rfl
  obtain ⟨hc, hd⟩ := hf1 "EN" (by decide) rfl rfl rfl
  exact ⟨ha, hb, hc, hd, hpair⟩

end TranslateMovie
